import Mathlib

/-!
Verification of the dexscreener-bsc-swap repository.

Shallow embedding conventions:
* TypeScript `bigint` values are modelled as `Int`; `bigint` division truncates
  toward zero, which is `Int.tdiv`.
* TypeScript `number` values that carry fractional data (slippage percentages,
  USD liquidity) are modelled as `ℚ`; `Math.floor` is `Int.floor`.
* TypeScript strings are modelled as `String`, except in the hex-path encoder
  where a string is modelled as its character list (`List Char`), which makes
  the character-level operations (`slice`, `toLowerCase`, `padStart`,
  concatenation) direct list operations.
* `async` functions performing network effects are modelled by passing the
  sequence of outcomes of the effect as an explicit oracle and returning a
  trace (number of calls, sleeps performed, final outcome).
* Thrown exceptions are modelled with `Except` or with explicit outcome
  constructors.
-/

namespace Swap

/-- Invalid-slippage error message thrown by `calculateAmountOutMin`
(src/swap.ts line 301). -/
def slippageRangeMsg : String := "Slippage must be between 0 and 10000 basis points"

/-- Embedding of `calculateAmountOutMin(expectedOutput: bigint, slippageBps: number)`
from src/swap.ts lines 298-306.  The `number` argument is modelled as `ℚ`,
`Math.floor` as `Int.floor`, the thrown `Error` as `Except.error`, and the
`bigint` division by `10000n` as truncating division `Int.tdiv`. -/
def calculateAmountOutMin (expectedOutput : Int) (slippageBps : ℚ) : Except String Int :=
  if slippageBps < 0 ∨ 10000 < slippageBps then
    Except.error slippageRangeMsg
  else
    Except.ok (Int.tdiv (expectedOutput * (10000 - ⌊slippageBps⌋)) 10000)

/-- Default base fee in gwei if the provider does not return fee data
(src/swap.ts `DEFAULT_BASE_FEE_GWEI = '5'`). -/
def DEFAULT_BASE_FEE_GWEI : String := "5"

/-- Priority fee for BSC transactions (src/swap.ts `BSC_PRIORITY_FEE_GWEI = '3'`). -/
def BSC_PRIORITY_FEE_GWEI : String := "3"

/-- Buffer percentage added to the base fee (src/swap.ts `GAS_FEE_BUFFER_PERCENT = 20n`). -/
def GAS_FEE_BUFFER_PERCENT : Int := 20

/-- Decimal parsing of a digit string, as `ethers.parseUnits` does for an
integral input. -/
def parseDecimalNat (s : String) : Nat :=
  s.data.foldl (fun acc c => acc * 10 + (c.toNat - 48)) 0

/-- Embedding of `ethers.parseUnits(value, 'gwei')` for integral decimal
strings: the parsed value scaled by `10 ^ 9`. -/
def parseUnitsGwei (s : String) : Int :=
  Int.ofNat (parseDecimalNat s * 10 ^ 9)

/-- EIP-1559 gas parameters (src/swap.ts `interface GasParams`). -/
structure GasParams where
  maxFeePerGas : Int
  maxPriorityFeePerGas : Int
  deriving Repr, DecidableEq

/-- Embedding of `getGasParams(provider)` from src/swap.ts lines 274-288.
The only provider data the function reads is `feeData.maxFeePerGas`
(a `bigint` or `null`), modelled as the explicit argument
`observedMaxFeePerGas : Option Int`; `??` is `Option.getD` and the
`bigint` division by `100n` is `Int.tdiv`. -/
def getGasParams (observedMaxFeePerGas : Option Int) : GasParams :=
  let baseFee := observedMaxFeePerGas.getD (parseUnitsGwei DEFAULT_BASE_FEE_GWEI)
  let maxFeePerGas := Int.tdiv (baseFee * (100 + GAS_FEE_BUFFER_PERCENT)) 100
  let maxPriorityFeePerGas := parseUnitsGwei BSC_PRIORITY_FEE_GWEI
  { maxFeePerGas := maxFeePerGas, maxPriorityFeePerGas := maxPriorityFeePerGas }

end Swap

namespace Swap

theorem calculateAmountOutMin_ok (e : Int) (n : Int)
    (hn0 : 0 ≤ n) (hn1 : n ≤ 10000) :
    calculateAmountOutMin e (n : ℚ) = Except.ok (Int.tdiv (e * (10000 - n)) 10000) := by
  unfold calculateAmountOutMin
  rw [if_neg]
  · rw [Int.floor_intCast]
  · push_neg
    constructor
    · exact_mod_cast hn0
    · exact_mod_cast hn1

theorem tdiv_formula_eq_ediv (e : Int) (n : Int) (he : 0 ≤ e)
    (hn0 : 0 ≤ n) (hn1 : n ≤ 10000) :
    Int.tdiv (e * (10000 - n)) 10000 = e * (10000 - n) / 10000 := by
  apply Int.tdiv_eq_ediv
  · exact mul_nonneg he (by omega)
  · norm_num

theorem amountOutMin_le (e n : Int) (he : 0 ≤ e) (hn0 : 0 ≤ n) (hn1 : n ≤ 10000) :
    e * (10000 - n) / 10000 ≤ e := by
  have h1 : e * (10000 - n) ≤ 10000 * e := by nlinarith
  have h2 : e * (10000 - n) / 10000 ≤ 10000 * e / 10000 :=
    Int.ediv_le_ediv (by norm_num) h1
  rwa [Int.mul_ediv_cancel_left e (by norm_num)] at h2

theorem amountOutMin_lt_of_pos (e n : Int) (he : 0 < e) (hn0 : 0 < n) (hn1 : n ≤ 10000) :
    e * (10000 - n) / 10000 < e := by
  have h1 : e * (10000 - n) ≤ 9999 + 10000 * (e - 1) := by nlinarith
  have h2 : e * (10000 - n) / 10000 ≤ (9999 + 10000 * (e - 1)) / 10000 :=
    Int.ediv_le_ediv (by norm_num) h1
  rw [Int.add_mul_ediv_left 9999 (e - 1) (by norm_num)] at h2
  norm_num at h2
  omega

/-- Claim C2: for every unsigned-integer expected output, `calculateAmountOutMin`
fails with the invalid-slippage error whenever `slippageBps` lies outside
`[0, 10000]`, and for an integer `slippageBps = n` in `[0, 10000]` it returns
`floor(expectedOutput * (10000 - n) / 10000)` computed in exact integer
arithmetic (`Int./` on a non-negative numerator and positive denominator is
the floor). -/
theorem calculateAmountOutMin_spec (e : Int) (he : 0 ≤ e) (s : ℚ) :
    ((s < 0 ∨ 10000 < s) → calculateAmountOutMin e s = Except.error slippageRangeMsg) ∧
    (∀ n : Int, (n : ℚ) = s → 0 ≤ n → n ≤ 10000 →
      calculateAmountOutMin e s = Except.ok (e * (10000 - n) / 10000)) := by
  constructor
  · intro hout
    unfold calculateAmountOutMin
    rw [if_pos hout]
  · intro n hcast hn0 hn1
    subst hcast
    rw [calculateAmountOutMin_ok e n hn0 hn1,
      tdiv_formula_eq_ediv e n he hn0 hn1]

/-- Witness for C2: at `expectedOutput = 12345` and `slippageBps = 25`
(0.25 %), the minimum output is `12314 = floor(12345 * 9975 / 10000)`, and at
`slippageBps = 10001` the invalid-slippage error is raised. -/
theorem calculateAmountOutMin_spec_witness :
    (0 : Int) ≤ 12345 ∧
    calculateAmountOutMin 12345 25 = Except.ok 12314 ∧
    calculateAmountOutMin 12345 10001 = Except.error slippageRangeMsg := by
  refine ⟨by norm_num, ?_, ?_⟩
  · rw [(calculateAmountOutMin_spec 12345 (by norm_num) 25).2 25 (by norm_num)
      (by norm_num) (by norm_num)]
    norm_num
  · exact (calculateAmountOutMin_spec 12345 (by norm_num) 10001).1 (by norm_num)

/-- Counterexample to claim C1 as stated: at `expectedOutput = 0` and
`slippageBps = 1` (an integer in `[0, 10000]` different from `0`), the
returned minimum output `0` equals the expected output, so
`minOutput = expectedOutput` does not imply `slippageBps = 0`. -/
theorem calculateAmountOutMin_iff_cex :
    calculateAmountOutMin 0 1 = Except.ok 0 ∧ (1 : ℚ) ≠ 0 := by
  constructor
  · unfold calculateAmountOutMin
    rw [if_neg (by norm_num)]
    norm_num
  · norm_num

/-- Claim C1 (amended): for every unsigned integer `expectedOutput ≥ 0` and
integer `slippageBps` in `[0, 10000]`, the returned minimum output `m`
satisfies `0 ≤ m ≤ expectedOutput`, and `m = expectedOutput` if and only if
`slippageBps = 0` or `expectedOutput = 0`. -/
theorem calculateAmountOutMin_bounds (e n : Int)
    (he : 0 ≤ e) (hn0 : 0 ≤ n) (hn1 : n ≤ 10000) :
    ∃ m, calculateAmountOutMin e (n : ℚ) = Except.ok m ∧
      0 ≤ m ∧ m ≤ e ∧ (m = e ↔ (n = 0 ∨ e = 0)) := by
  refine ⟨e * (10000 - n) / 10000,
    (calculateAmountOutMin_spec e he (n : ℚ)).2 n rfl hn0 hn1, ?_, ?_, ?_⟩
  · exact Int.ediv_nonneg (mul_nonneg he (by omega)) (by norm_num)
  · exact amountOutMin_le e n he hn0 hn1
  · constructor
    · intro hm
      by_contra hcon
      push_neg at hcon
      obtain ⟨hn, hee⟩ := hcon
      have := amountOutMin_lt_of_pos e n (lt_of_le_of_ne he (Ne.symm hee))
        (lt_of_le_of_ne hn0 (Ne.symm hn)) hn1
      omega
    · rintro (h0 | h0) <;> subst h0
      · norm_num
      · norm_num

/-- Witness for C1 (amended): at `expectedOutput = 7`, `slippageBps = 3` the
conclusion holds (and indeed `m = 6 < 7`). -/
theorem calculateAmountOutMin_bounds_witness :
    (0 : Int) ≤ 7 ∧ (0 : Int) ≤ 3 ∧ (3 : Int) ≤ 10000 ∧
    ∃ m, calculateAmountOutMin 7 ((3 : Int) : ℚ) = Except.ok m ∧
      0 ≤ m ∧ m ≤ 7 ∧ (m = 7 ↔ ((3 : Int) = 0 ∨ (7 : Int) = 0)) :=
  ⟨by norm_num, by norm_num, by norm_num,
    calculateAmountOutMin_bounds 7 3 (by norm_num) (by norm_num) (by norm_num)⟩

/-- Claim C7: `getGasParams` returns
`maxFeePerGas = b * (100 + 20) / 100` in exact integer arithmetic where `b`
is the provider's observed fee, or the fixed default of 5 gwei when the
provider reports none (an observed 5 gwei yields 6 gwei), and
`maxPriorityFeePerGas` is the fixed 3-gwei constant regardless of the
observed fee data. -/
theorem getGasParams_spec (fd : Option Int) (h : 0 ≤ fd.getD (5 * 10 ^ 9)) :
    (getGasParams fd).maxFeePerGas = fd.getD (5 * 10 ^ 9) * (100 + 20) / 100 ∧
    (getGasParams fd).maxPriorityFeePerGas = 3 * 10 ^ 9 ∧
    (getGasParams (some (5 * 10 ^ 9))).maxFeePerGas = 6 * 10 ^ 9 := by
  have hdef : parseUnitsGwei DEFAULT_BASE_FEE_GWEI = 5 * 10 ^ 9 := by decide
  refine ⟨?_, ?_, by decide⟩
  case refine_2 =>
    show parseUnitsGwei BSC_PRIORITY_FEE_GWEI = 3 * 10 ^ 9
    decide
  show Int.tdiv (fd.getD (parseUnitsGwei DEFAULT_BASE_FEE_GWEI) *
      (100 + GAS_FEE_BUFFER_PERCENT)) 100 = fd.getD (5 * 10 ^ 9) * (100 + 20) / 100
  rw [hdef]
  show Int.tdiv (fd.getD (5 * 10 ^ 9) * (100 + 20)) 100 =
    fd.getD (5 * 10 ^ 9) * (100 + 20) / 100
  exact Int.tdiv_eq_ediv (mul_nonneg h (by norm_num)) (by norm_num)

/-- Witness for C7: with an observed fee of 7 gwei the buffered fee is
`7 * 120 / 100 = 8.4` gwei truncated to `8400000000`. -/
theorem getGasParams_spec_witness :
    (0 : Int) ≤ (some (7 * 10 ^ 9) : Option Int).getD (5 * 10 ^ 9) ∧
    (getGasParams (some (7 * 10 ^ 9))).maxFeePerGas =
      (some (7 * 10 ^ 9) : Option Int).getD (5 * 10 ^ 9) * (100 + 20) / 100 :=
  ⟨by norm_num, (getGasParams_spec (some (7 * 10 ^ 9)) (by norm_num)).1⟩

end Swap

namespace Dexscreener

/-- Token descriptor from the Dexscreener API (src/types.ts `interface Token`). -/
structure Token where
  address : String
  name : String
  symbol : String
  deriving Repr, DecidableEq

/-- Liquidity snapshot from the Dexscreener API (src/types.ts
`interface Liquidity`); all fields optional, the `number` values modelled
as `ℚ`. -/
structure Liquidity where
  usd : Option ℚ
  base : Option ℚ
  quote : Option ℚ
  deriving Repr, DecidableEq

/-- Pair record from the Dexscreener API (src/types.ts
`interface DexscreenerPair`); `labels?` and `liquidity?` are optional. -/
structure DexscreenerPair where
  chainId : String
  pairAddress : String
  baseToken : Token
  quoteToken : Token
  labels : Option (List String)
  liquidity : Option Liquidity
  dexId : String
  url : String
  deriving Repr, DecidableEq

/-- The target chain identifier used by `selectBestPool`. -/
def bscChainId : String := "bsc"

/-- The `v2` pool label. -/
def labelV2 : String := "v2"

/-- The `v3` pool label. -/
def labelV3 : String := "v3"

/-- Embedding of `isValidPoolLabel` from src/types.ts: `l === 'v2' || l === 'v3'`. -/
def isValidPoolLabel (label : String) : Bool :=
  label == labelV2 || label == labelV3

/-- Selected pool (src/types.ts `interface PoolInfo`); `poolType` keeps the
label string found on the listing (the source casts it to `PoolLabel`). -/
structure PoolInfo where
  pairAddress : String
  poolType : String
  dexId : String
  liquidity : ℚ
  deriving Repr, DecidableEq

/-- Embedding of the tagged union `SelectBestPoolResult` from
src/dexscreener.ts lines 132-135. -/
inductive SelectBestPoolResult where
  | success (pool : PoolInfo)
  | noValidPools
  | insufficientLiquidity (minLiquidityUsd : ℚ)
  deriving Repr, DecidableEq

/-- The USD liquidity read as `pair.liquidity?.usd ?? 0`: a missing
`liquidity` object or a missing `usd` field is normalized to `0`. -/
def usdOf (p : DexscreenerPair) : ℚ :=
  ((p.liquidity.bind Liquidity.usd).getD 0)

/-- The first `v2`/`v3` label of a listing, read as
`pair.labels?.find((l) => isValidPoolLabel(l))`. -/
def validLabelOf (p : DexscreenerPair) : Option String :=
  p.labels.bind (List.find? isValidPoolLabel)

/-- Element type of the intermediate array built by `selectBestPool`:
`{ pair, poolType: validLabel }`. -/
structure ValidPair where
  pair : DexscreenerPair
  poolType : String
  deriving Repr, DecidableEq

/-- The body of the `.map` in `selectBestPool`:
`validLabel ? { pair, poolType: validLabel } : null` (a `null` is `none`). -/
def toValidItem (p : DexscreenerPair) : Option ValidPair :=
  (validLabelOf p).map (fun l => ⟨p, l⟩)

/-- `pairs.filter((p) => p.chainId === 'bsc')`. -/
def bscFilter (pairs : List DexscreenerPair) : List DexscreenerPair :=
  pairs.filter (fun p => p.chainId == bscChainId)

/-- The `validPairs` array of `selectBestPool`:
`bscPairs.map(...).filter((item) => item !== null)`. -/
def validListOf (pairs : List DexscreenerPair) : List ValidPair :=
  ((bscFilter pairs).map toValidItem).filterMap id

/-- The `liquidPairs` array of `selectBestPool`:
`validPairs.filter((item) => (item.pair.liquidity?.usd ?? 0) >= minLiquidityUsd)`. -/
def liquidListOf (minLiquidityUsd : ℚ) (pairs : List DexscreenerPair) : List ValidPair :=
  (validListOf pairs).filter (fun item => decide (minLiquidityUsd ≤ usdOf item.pair))

/-- Stable insertion step for the descending-by-key order: the inserted
element `x` precedes the first already-placed element whose key is `≤ key x`.
Because `x` originates earlier in the array than every element of the list it
is inserted into, this places `x` before elements with equal keys, matching
the stability ECMAScript requires of `Array.prototype.sort`. -/
def jsInsertDesc {α : Type} (key : α → ℚ) (x : α) : List α → List α
  | [] => [x]
  | y :: ys => if key y ≤ key x then x :: y :: ys else y :: jsInsertDesc key x ys

/-- Embedding of `arr.sort((a, b) => key(b) - key(a))`.  ECMAScript requires
`Array.prototype.sort` to produce a stable order consistent with the
comparator; for this consistent comparator that result is unique, and this
stable insertion sort realizes it. -/
def jsSortDesc {α : Type} (key : α → ℚ) : List α → List α
  | [] => []
  | x :: xs => jsInsertDesc key x (jsSortDesc key xs)

/-- Embedding of `selectBestPool(pairs, minLiquidityUsd = 0)` from
src/dexscreener.ts lines 145-186.  The source's default argument is `0`;
call sites in this file pass the threshold explicitly.  The `[]` branch of
the final `match` is unreachable (sorting preserves non-emptiness) and only
makes the definition total. -/
def selectBestPool (pairs : List DexscreenerPair) (minLiquidityUsd : ℚ) :
    SelectBestPoolResult :=
  if (validListOf pairs).isEmpty then
    .noValidPools
  else if (liquidListOf minLiquidityUsd pairs).isEmpty then
    .insufficientLiquidity minLiquidityUsd
  else
    match jsSortDesc (fun item => usdOf item.pair) (liquidListOf minLiquidityUsd pairs) with
    | [] => .noValidPools
    | best :: _ =>
      .success ⟨best.pair.pairAddress, best.poolType, best.pair.dexId, usdOf best.pair⟩

/-- A listing passes the chain filter and the v2/v3-label filter. -/
def chainLabelOk (p : DexscreenerPair) : Bool :=
  (p.chainId == bscChainId) && (validLabelOf p).isSome

/-- A listing passes all three filters of `selectBestPool`. -/
def qualifies (minLiquidityUsd : ℚ) (p : DexscreenerPair) : Bool :=
  chainLabelOk p && decide (minLiquidityUsd ≤ usdOf p)

end Dexscreener

namespace Dexscreener

theorem jsInsertDesc_ne_nil {α : Type} (key : α → ℚ) (x : α) (l : List α) :
    jsInsertDesc key x l ≠ [] := by
  cases l with
  | nil => simp [jsInsertDesc]
  | cons y ys =>
    unfold jsInsertDesc
    split <;> simp

theorem jsSortDesc_eq_nil_iff {α : Type} (key : α → ℚ) (l : List α) :
    jsSortDesc key l = [] ↔ l = [] := by
  cases l with
  | nil => simp [jsSortDesc]
  | cons x xs =>
    unfold jsSortDesc
    simp [jsInsertDesc_ne_nil]

theorem mem_jsInsertDesc {α : Type} (key : α → ℚ) (x a : α) (l : List α) :
    a ∈ jsInsertDesc key x l ↔ a = x ∨ a ∈ l := by
  induction l with
  | nil => simp [jsInsertDesc]
  | cons y ys ih =>
    unfold jsInsertDesc
    split
    · simp
    · simp only [List.mem_cons, ih]
      tauto

theorem mem_jsSortDesc {α : Type} (key : α → ℚ) (a : α) (l : List α) :
    a ∈ jsSortDesc key l ↔ a ∈ l := by
  induction l with
  | nil => simp [jsSortDesc]
  | cons x xs ih =>
    unfold jsSortDesc
    rw [mem_jsInsertDesc, ih]
    simp

/-- The head of the stable descending sort is the first element of the input
whose key is maximal: every element's key is bounded by the head's key, and
the head is the first input element whose key reaches it. -/
theorem jsSortDesc_head {α : Type} (key : α → ℚ) :
    ∀ (l : List α) (b : α) (t : List α), jsSortDesc key l = b :: t →
      (∀ x ∈ l, key x ≤ key b) ∧
      l.find? (fun x => decide (key b ≤ key x)) = some b := by
  intro l
  induction l with
  | nil => intro b t h; simp [jsSortDesc] at h
  | cons x xs ih =>
    intro b t h
    unfold jsSortDesc at h
    cases hxs : jsSortDesc key xs with
    | nil =>
      have hxe : xs = [] := (jsSortDesc_eq_nil_iff key xs).mp hxs
      subst hxe
      rw [hxs] at h
      unfold jsInsertDesc at h
      cases h
      constructor
      · intro y hy
        simp at hy
        subst hy
        exact le_refl _
      · simp [List.find?_cons]
    | cons h0 t0 =>
      rw [hxs] at h
      obtain ⟨hmax0, hfind0⟩ := ih h0 t0 hxs
      unfold jsInsertDesc at h
      by_cases hc : key h0 ≤ key x
      · rw [if_pos hc] at h
        cases h
        constructor
        · intro y hy
          rcases List.mem_cons.mp hy with hy | hy
          · subst hy; exact le_refl _
          · exact le_trans (hmax0 y hy) hc
        · rw [List.find?_cons]
          simp
      · rw [if_neg hc] at h
        cases h
        push_neg at hc
        constructor
        · intro y hy
          rcases List.mem_cons.mp hy with hy | hy
          · subst hy; exact le_of_lt hc
          · exact hmax0 y hy
        · rw [List.find?_cons]
          have : (decide (key b ≤ key x)) = false := by
            simp only [decide_eq_false_iff_not, not_le]
            exact hc
          rw [this]
          exact hfind0

end Dexscreener


namespace Dexscreener

theorem validListOf_nil : validListOf [] = [] := rfl

theorem validListOf_cons_ok (p : DexscreenerPair) (r : List DexscreenerPair)
    (l : String) (h1 : (p.chainId == bscChainId) = true) (h2 : validLabelOf p = some l) :
    validListOf (p :: r) = ⟨p, l⟩ :: validListOf r := by
  have ht : toValidItem p = some (⟨p, l⟩ : ValidPair) := by
    unfold toValidItem
    rw [h2]
    rfl
  unfold validListOf bscFilter
  simp [List.filter_cons, h1, ht]

theorem validListOf_cons_skip (p : DexscreenerPair) (r : List DexscreenerPair)
    (h : chainLabelOk p = false) : validListOf (p :: r) = validListOf r := by
  unfold chainLabelOk at h
  rw [Bool.and_eq_false_iff] at h
  by_cases hc : (p.chainId == bscChainId) = true
  · have hlab : validLabelOf p = none := by
      rcases h with h | h
      · rw [hc] at h; simp at h
      · exact Option.not_isSome_iff_eq_none.mp (by simp [h])
    have ht : toValidItem p = none := by
      unfold toValidItem
      rw [hlab]
      rfl
    unfold validListOf bscFilter
    simp [List.filter_cons, hc, ht]
  · unfold validListOf bscFilter
    simp [List.filter_cons, hc]

theorem chainLabelOk_parts (p : DexscreenerPair) (h : chainLabelOk p = true) :
    (p.chainId == bscChainId) = true ∧ ∃ l, validLabelOf p = some l := by
  unfold chainLabelOk at h
  rw [Bool.and_eq_true_iff] at h
  exact ⟨h.1, Option.isSome_iff_exists.mp h.2⟩

theorem mem_validListOf (pairs : List DexscreenerPair) (vp : ValidPair)
    (h : vp ∈ validListOf pairs) :
    vp.pair ∈ pairs ∧ chainLabelOk vp.pair = true ∧
      validLabelOf vp.pair = some vp.poolType := by
  induction pairs with
  | nil => simp [validListOf_nil] at h
  | cons p r ih =>
    by_cases hok : chainLabelOk p = true
    · obtain ⟨hc, l, hl⟩ := chainLabelOk_parts p hok
      rw [validListOf_cons_ok p r l hc hl] at h
      rcases List.mem_cons.mp h with h | h
      · subst h
        exact ⟨List.mem_cons_self _ _, hok, hl⟩
      · obtain ⟨hm, hg, hv⟩ := ih h
        exact ⟨List.mem_cons_of_mem _ hm, hg, hv⟩
    · rw [validListOf_cons_skip p r (by simpa using hok)] at h
      obtain ⟨hm, hg, hv⟩ := ih h
      exact ⟨List.mem_cons_of_mem _ hm, hg, hv⟩

theorem mem_validListOf_of (pairs : List DexscreenerPair) (p : DexscreenerPair)
    (l : String) (hc : (p.chainId == bscChainId) = true) (hl : validLabelOf p = some l) :
    p ∈ pairs → (⟨p, l⟩ : ValidPair) ∈ validListOf pairs := by
  induction pairs with
  | nil => intro h; simp at h
  | cons q r ih =>
    intro hmem
    rcases List.mem_cons.mp hmem with hq | hq
    · subst hq
      rw [validListOf_cons_ok p r l hc hl]
      exact List.mem_cons_self _ _
    · by_cases hokq : chainLabelOk q = true
      · obtain ⟨hcq, lq, hlq⟩ := chainLabelOk_parts q hokq
        rw [validListOf_cons_ok q r lq hcq hlq]
        exact List.mem_cons_of_mem _ (ih hq)
      · rw [validListOf_cons_skip q r (by simpa using hokq)]
        exact ih hq

theorem exists_mem_validListOf (pairs : List DexscreenerPair) (p : DexscreenerPair)
    (hmem : p ∈ pairs) (hok : chainLabelOk p = true) :
    ∃ l, validLabelOf p = some l ∧ (⟨p, l⟩ : ValidPair) ∈ validListOf pairs := by
  obtain ⟨hc, l, hl⟩ := chainLabelOk_parts p hok
  exact ⟨l, hl, mem_validListOf_of pairs p l hc hl hmem⟩

theorem validListOf_eq_nil_iff (pairs : List DexscreenerPair) :
    validListOf pairs = [] ↔ ∀ p ∈ pairs, chainLabelOk p = false := by
  constructor
  · intro h p hp
    by_contra hcon
    obtain ⟨l, -, hmem⟩ := exists_mem_validListOf pairs p hp (by simpa using hcon)
    rw [h] at hmem
    simp at hmem
  · intro h
    induction pairs with
    | nil => rfl
    | cons p r ih =>
      rw [validListOf_cons_skip p r (h p (List.mem_cons_self _ _))]
      exact ih (fun q hq => h q (List.mem_cons_of_mem _ hq))

theorem mem_liquidListOf (min : ℚ) (pairs : List DexscreenerPair) (vp : ValidPair) :
    vp ∈ liquidListOf min pairs ↔
      vp ∈ validListOf pairs ∧ min ≤ usdOf vp.pair := by
  unfold liquidListOf
  rw [List.mem_filter]
  simp

theorem liquidListOf_eq_nil_iff (min : ℚ) (pairs : List DexscreenerPair) :
    liquidListOf min pairs = [] ↔
      ∀ p ∈ pairs, chainLabelOk p = true → usdOf p < min := by
  constructor
  · intro h p hp hok
    by_contra hcon
    push_neg at hcon
    obtain ⟨l, -, hmem⟩ := exists_mem_validListOf pairs p hp hok
    have : (⟨p, l⟩ : ValidPair) ∈ liquidListOf min pairs :=
      (mem_liquidListOf min pairs _).mpr ⟨hmem, hcon⟩
    rw [h] at this
    simp at this
  · intro h
    rw [List.eq_nil_iff_forall_not_mem]
    intro vp hvp
    rw [mem_liquidListOf] at hvp
    obtain ⟨hv, hge⟩ := hvp
    obtain ⟨hm, hok, -⟩ := mem_validListOf pairs vp hv
    exact absurd hge (not_le.mpr (h vp.pair hm hok))

end Dexscreener

namespace Dexscreener

theorem qualifies_parts (min : ℚ) (p : DexscreenerPair) (h : qualifies min p = true) :
    chainLabelOk p = true ∧ min ≤ usdOf p := by
  unfold qualifies at h
  rw [Bool.and_eq_true_iff] at h
  exact ⟨h.1, of_decide_eq_true h.2⟩

theorem qualifies_of_parts (min : ℚ) (p : DexscreenerPair)
    (h1 : chainLabelOk p = true) (h2 : min ≤ usdOf p) : qualifies min p = true := by
  unfold qualifies
  rw [Bool.and_eq_true_iff]
  exact ⟨h1, decide_eq_true h2⟩

theorem liquidListOf_cons_ok (min : ℚ) (p : DexscreenerPair) (r : List DexscreenerPair)
    (h : qualifies min p = true) :
    ∃ l, validLabelOf p = some l ∧
      liquidListOf min (p :: r) = ⟨p, l⟩ :: liquidListOf min r := by
  obtain ⟨hok, hge⟩ := qualifies_parts min p h
  obtain ⟨hc, l, hl⟩ := chainLabelOk_parts p hok
  refine ⟨l, hl, ?_⟩
  unfold liquidListOf
  rw [validListOf_cons_ok p r l hc hl, List.filter_cons_of_pos (by simpa using hge)]

theorem liquidListOf_cons_skip (min : ℚ) (p : DexscreenerPair) (r : List DexscreenerPair)
    (h : qualifies min p = false) :
    liquidListOf min (p :: r) = liquidListOf min r := by
  unfold qualifies at h
  rw [Bool.and_eq_false_iff] at h
  rcases h with h | h
  · unfold liquidListOf
    rw [validListOf_cons_skip p r h]
  · by_cases hok : chainLabelOk p = true
    · obtain ⟨hc, l, hl⟩ := chainLabelOk_parts p hok
      unfold liquidListOf
      rw [validListOf_cons_ok p r l hc hl, List.filter_cons_of_neg (by simpa using h)]
    · unfold liquidListOf
      rw [validListOf_cons_skip p r (by simpa using hok)]

theorem liquid_find?_transfer (min M : ℚ) :
    ∀ (pairs : List DexscreenerPair) (b : ValidPair),
      (liquidListOf min pairs).find? (fun vp => decide (M ≤ usdOf vp.pair)) = some b →
      pairs.find? (fun q => qualifies min q && decide (M ≤ usdOf q)) = some b.pair := by
  intro pairs
  induction pairs with
  | nil => intro b h; simp [liquidListOf, validListOf_nil] at h
  | cons p r ih =>
    intro b h
    by_cases hq : qualifies min p = true
    · obtain ⟨l, -, hcons⟩ := liquidListOf_cons_ok min p r hq
      rw [hcons, List.find?_cons] at h
      rw [List.find?_cons]
      by_cases hM : (decide (M ≤ usdOf p) : Bool) = true
      · rw [show (qualifies min p && decide (M ≤ usdOf p)) = true by rw [hq, hM]; rfl]
        simp only [hM] at h
        cases h
        rfl
      · have hM' : (decide (M ≤ usdOf p) : Bool) = false := by simpa using hM
        rw [show (qualifies min p && decide (M ≤ usdOf p)) = false by rw [hq, hM']; rfl]
        simp only [hM'] at h
        exact ih b h
    · have hq' : qualifies min p = false := by simpa using hq
      rw [liquidListOf_cons_skip min p r hq'] at h
      rw [List.find?_cons,
        show (qualifies min p && decide (M ≤ usdOf p)) = false by rw [hq']; rfl]
      exact ih b h

theorem selectBestPool_eq_noValid (pairs : List DexscreenerPair) (min : ℚ)
    (h : validListOf pairs = []) : selectBestPool pairs min = .noValidPools := by
  unfold selectBestPool
  rw [h]
  rfl

theorem liquid_nil_of_valid_nil (min : ℚ) (pairs : List DexscreenerPair)
    (h : validListOf pairs = []) : liquidListOf min pairs = [] := by
  unfold liquidListOf
  rw [h]
  rfl

theorem selectBestPool_eq_insufficient (pairs : List DexscreenerPair) (min : ℚ)
    (h1 : validListOf pairs ≠ []) (h2 : liquidListOf min pairs = []) :
    selectBestPool pairs min = .insufficientLiquidity min := by
  unfold selectBestPool
  rw [h2]
  rw [if_neg (by simp [List.isEmpty_iff, h1])]
  rfl

theorem selectBestPool_eq_success (pairs : List DexscreenerPair) (min : ℚ)
    (b : ValidPair) (t : List ValidPair)
    (hsort : jsSortDesc (fun item => usdOf item.pair) (liquidListOf min pairs) = b :: t) :
    selectBestPool pairs min =
      .success ⟨b.pair.pairAddress, b.poolType, b.pair.dexId, usdOf b.pair⟩ := by
  have h2 : liquidListOf min pairs ≠ [] := by
    intro hnil
    rw [hnil] at hsort
    simp [jsSortDesc] at hsort
  have h1 : validListOf pairs ≠ [] := by
    intro hnil
    exact h2 (liquid_nil_of_valid_nil min pairs hnil)
  unfold selectBestPool
  rw [if_neg (by simp [List.isEmpty_iff, h1]), if_neg (by simp [List.isEmpty_iff, h2]), hsort]

end Dexscreener

namespace Dexscreener

/-- Claim C3: whenever some listing has chain `'bsc'`, a `v2`/`v3` label and
USD liquidity (missing treated as 0) at least `minLiquidityUsd`,
`selectBestPool` succeeds and returns the qualifying listing with the
greatest USD liquidity, ties broken in favor of the earlier listing (it is
the first listing whose liquidity reaches the winner's), and the returned
`poolType` is the listing's first `v2`/`v3` label. -/
theorem selectBestPool_best (pairs : List DexscreenerPair) (min : ℚ)
    (hex : ∃ p ∈ pairs, qualifies min p = true) :
    ∃ best label,
      best ∈ pairs ∧ qualifies min best = true ∧
      validLabelOf best = some label ∧
      selectBestPool pairs min =
        .success ⟨best.pairAddress, label, best.dexId, usdOf best⟩ ∧
      (∀ q ∈ pairs, qualifies min q = true → usdOf q ≤ usdOf best) ∧
      pairs.find? (fun q => qualifies min q && decide (usdOf best ≤ usdOf q)) =
        some best := by
  obtain ⟨p, hp, hq⟩ := hex
  obtain ⟨hok, hge⟩ := qualifies_parts min p hq
  have hliquid : liquidListOf min pairs ≠ [] := by
    intro hnil
    exact absurd hge (not_le.mpr ((liquidListOf_eq_nil_iff min pairs).mp hnil p hp hok))
  cases hsort : jsSortDesc (fun item => usdOf item.pair) (liquidListOf min pairs) with
  | nil => exact absurd ((jsSortDesc_eq_nil_iff _ _).mp hsort) hliquid
  | cons b t =>
    obtain ⟨hmax, hfind⟩ := jsSortDesc_head (fun item => usdOf item.pair) _ b t hsort
    have hbmem : b ∈ liquidListOf min pairs := by
      rw [← mem_jsSortDesc (fun item => usdOf item.pair), hsort]
      exact List.mem_cons_self _ _
    obtain ⟨hbv, hbge⟩ := (mem_liquidListOf min pairs b).mp hbmem
    obtain ⟨hbp, hbok, hblab⟩ := mem_validListOf pairs b hbv
    refine ⟨b.pair, b.poolType, hbp, qualifies_of_parts min b.pair hbok hbge, hblab,
      selectBestPool_eq_success pairs min b t hsort, ?_, ?_⟩
    · intro q hmemq hqq
      obtain ⟨hokq, hgeq⟩ := qualifies_parts min q hqq
      obtain ⟨l, -, hmem⟩ := exists_mem_validListOf pairs q hmemq hokq
      have : (⟨q, l⟩ : ValidPair) ∈ liquidListOf min pairs :=
        (mem_liquidListOf min pairs _).mpr ⟨hmem, hgeq⟩
      exact hmax _ this
    · exact liquid_find?_transfer min (usdOf b.pair) pairs b hfind

/-- Example listing with 50000 USD liquidity (spec test scenario). -/
def examplePoolA : DexscreenerPair :=
  ⟨bscChainId, "a", ⟨"x", "X", "X"⟩, ⟨"y", "Y", "Y"⟩, some [labelV2],
    some ⟨some 50000, none, none⟩, "pancakeswap", "u"⟩

/-- Example listing with 500000 USD liquidity (spec test scenario). -/
def examplePoolB : DexscreenerPair :=
  ⟨bscChainId, "b", ⟨"x", "X", "X"⟩, ⟨"y", "Y", "Y"⟩, some [labelV3],
    some ⟨some 500000, none, none⟩, "pancakeswap", "u"⟩

/-- Example listing with 200000 USD liquidity (spec test scenario). -/
def examplePoolC : DexscreenerPair :=
  ⟨bscChainId, "c", ⟨"x", "X", "X"⟩, ⟨"y", "Y", "Y"⟩, some [labelV2],
    some ⟨some 200000, none, none⟩, "pancakeswap", "u"⟩

/-- Witness for C3, following the spec example: three qualifying pools with
liquidity `[50000, 500000, 200000]`; the pool with liquidity `500000`
(`examplePoolB`) wins. -/
theorem selectBestPool_best_witness :
    (∃ p ∈ [examplePoolA, examplePoolB, examplePoolC], qualifies 1000 p = true) ∧
    selectBestPool [examplePoolA, examplePoolB, examplePoolC] 1000 =
      .success ⟨"b", labelV3, "pancakeswap", 500000⟩ := by
  constructor
  · exact ⟨examplePoolA, List.mem_cons_self _ _, by decide⟩
  · obtain ⟨best, label, hmem, hqual, hlab, heq, hmax, hfind⟩ :=
      selectBestPool_best [examplePoolA, examplePoolB, examplePoolC] 1000
        ⟨examplePoolA, List.mem_cons_self _ _, by decide⟩
    rw [heq]
    have hbest : best = examplePoolB := by
      have h50 : usdOf examplePoolB ≤ usdOf best := by
        apply hmax
        · exact List.mem_cons_of_mem _ (List.mem_cons_self _ _)
        · decide
      fin_cases hmem <;> first
        | rfl
        | (exfalso; revert h50; decide)
    subst hbest
    rw [show label = labelV3 by
      rw [show validLabelOf examplePoolB = some labelV3 from by decide] at hlab
      exact (Option.some_inj.mp hlab).symm]
    rfl

end Dexscreener

namespace Dexscreener

theorem exists_chainLabelOk_of_valid_ne_nil (pairs : List DexscreenerPair)
    (hv : validListOf pairs ≠ []) : ∃ p ∈ pairs, chainLabelOk p = true := by
  cases hvv : validListOf pairs with
  | nil => exact absurd hvv hv
  | cons vp rest =>
    have hmem : vp ∈ validListOf pairs := by
      rw [hvv]
      exact List.mem_cons_self _ _
    obtain ⟨hm, hok, -⟩ := mem_validListOf pairs vp hmem
    exact ⟨vp.pair, hm, hok⟩

/-- Claim C4: `selectBestPool` fails with `no_valid_pools` exactly when no
listing passes the chain and v2/v3-label filters; it fails with
`insufficient_liquidity` carrying the given threshold exactly when some
listing passes those filters but every such listing's USD liquidity
(missing treated as 0) is strictly below the threshold; the payload is
always the given threshold; and a listing whose liquidity exactly equals
the threshold prevents the `insufficient_liquidity` failure. -/
theorem selectBestPool_failure_modes (pairs : List DexscreenerPair) (min : ℚ) :
    (selectBestPool pairs min = .noValidPools ↔
      ∀ p ∈ pairs, chainLabelOk p = false) ∧
    (selectBestPool pairs min = .insufficientLiquidity min ↔
      ((∃ p ∈ pairs, chainLabelOk p = true) ∧
        ∀ p ∈ pairs, chainLabelOk p = true → usdOf p < min)) ∧
    (∀ m, selectBestPool pairs min = .insufficientLiquidity m → m = min) ∧
    (∀ p ∈ pairs, chainLabelOk p = true → usdOf p = min →
      selectBestPool pairs min ≠ .insufficientLiquidity min) := by
  by_cases hv : validListOf pairs = []
  · have hres := selectBestPool_eq_noValid pairs min hv
    have hall : ∀ p ∈ pairs, chainLabelOk p = false := (validListOf_eq_nil_iff pairs).mp hv
    refine ⟨iff_of_true hres hall, ?_, ?_, ?_⟩
    · constructor
      · intro h
        rw [hres] at h
        exact absurd h (by simp)
      · rintro ⟨⟨p, hp, hok⟩, -⟩
        rw [hall p hp] at hok
        exact absurd hok (by simp)
    · intro m h
      rw [hres] at h
      exact absurd h (by simp)
    · intro p hp hok
      rw [hall p hp] at hok
      exact absurd hok (by simp)
  · have hexist : ∃ p ∈ pairs, chainLabelOk p = true :=
      exists_chainLabelOk_of_valid_ne_nil pairs hv
    by_cases hl : liquidListOf min pairs = []
    · have hres := selectBestPool_eq_insufficient pairs min hv hl
      have hlt : ∀ p ∈ pairs, chainLabelOk p = true → usdOf p < min :=
        (liquidListOf_eq_nil_iff min pairs).mp hl
      refine ⟨?_, iff_of_true hres ⟨hexist, hlt⟩, ?_, ?_⟩
      · constructor
        · intro h
          rw [hres] at h
          exact absurd h (by simp)
        · intro hall
          obtain ⟨p, hp, hok⟩ := hexist
          rw [hall p hp] at hok
          exact absurd hok (by simp)
      · intro m h
        rw [hres] at h
        injection h with h'
        exact h'.symm
      · intro p hp hok hequsd
        exact absurd (hlt p hp hok) (by rw [hequsd]; exact lt_irrefl min)
    · cases hsort : jsSortDesc (fun item => usdOf item.pair) (liquidListOf min pairs) with
      | nil => exact absurd ((jsSortDesc_eq_nil_iff _ _).mp hsort) hl
      | cons b t =>
        have hres := selectBestPool_eq_success pairs min b t hsort
        have hbmem : b ∈ liquidListOf min pairs := by
          rw [← mem_jsSortDesc (fun item => usdOf item.pair), hsort]
          exact List.mem_cons_self _ _
        obtain ⟨hbv, hbge⟩ := (mem_liquidListOf min pairs b).mp hbmem
        obtain ⟨hbp, hbok, -⟩ := mem_validListOf pairs b hbv
        refine ⟨?_, ?_, ?_, ?_⟩
        · constructor
          · intro h
            rw [hres] at h
            exact absurd h (by simp)
          · intro hall
            obtain ⟨p, hp, hok⟩ := hexist
            rw [hall p hp] at hok
            exact absurd hok (by simp)
        · constructor
          · intro h
            rw [hres] at h
            exact absurd h (by simp)
          · rintro ⟨-, hallm⟩
            exact absurd (hallm b.pair hbp hbok) (not_lt.mpr hbge)
        · intro m h
          rw [hres] at h
          exact absurd h (by simp)
        · intro p hp hok hequsd
          rw [hres]
          simp

/-- Example listing with 500 USD liquidity (spec test scenario). -/
def examplePoolD : DexscreenerPair :=
  ⟨bscChainId, "d", ⟨"x", "X", "X"⟩, ⟨"y", "Y", "Y"⟩, some [labelV2],
    some ⟨some 500, none, none⟩, "pancakeswap", "u"⟩

/-- Example listing with 800 USD liquidity (spec test scenario). -/
def examplePoolE : DexscreenerPair :=
  ⟨bscChainId, "e", ⟨"x", "X", "X"⟩, ⟨"y", "Y", "Y"⟩, some [labelV2],
    some ⟨some 800, none, none⟩, "pancakeswap", "u"⟩

/-- Witness for C4, following the spec example: with a threshold of `1000`
and qualifying pools of liquidity `[500, 800]`, selection fails with
`insufficient_liquidity` carrying `1000`. -/
theorem selectBestPool_failure_modes_witness :
    selectBestPool [examplePoolD, examplePoolE] 1000 = .insufficientLiquidity 1000 :=
  (selectBestPool_failure_modes [examplePoolD, examplePoolE] 1000).2.1.mpr
    ⟨⟨examplePoolD, List.mem_cons_self _ _, by decide⟩, by decide⟩

end Dexscreener

namespace Dexscreener

/-- A BSC `v2` listing whose reported USD liquidity is negative (`-1`).
The Dexscreener payload type puts no lower bound on the `number` field, so
this value is representable. -/
def negativeLiquidityPool : DexscreenerPair :=
  ⟨bscChainId, "n", ⟨"x", "X", "X"⟩, ⟨"y", "Y", "Y"⟩, some [labelV2],
    some ⟨some (-1), none, none⟩, "pancakeswap", "u"⟩

/-- Counterexample to claim C10 as stated: with `minLiquidityUsd = 0`, a
listing that passes the chain and label filters but reports a negative USD
liquidity is dropped by the liquidity filter (`-1 >= 0` is false), so the
call does reach `insufficient_liquidity`. -/
theorem selectBestPool_zero_min_cex :
    chainLabelOk negativeLiquidityPool = true ∧
    selectBestPool [negativeLiquidityPool] 0 = .insufficientLiquidity 0 := by
  constructor
  · decide
  · decide

theorem usdOf_nonneg_of (p : DexscreenerPair)
    (h : ∀ l, p.liquidity = some l → ∀ u, l.usd = some u → 0 ≤ u) :
    0 ≤ usdOf p := by
  unfold usdOf
  cases hl : p.liquidity with
  | none => simp
  | some l =>
    cases hu : l.usd with
    | none => simp [Option.bind, hu]
    | some u =>
      simp only [Option.bind, hu, Option.getD_some]
      exact h l hl u hu

/-- Claim C10 (amended): when `minLiquidityUsd ≤ 0` and every USD liquidity
value present in the input is non-negative (the missing value is normalized
to 0), the `insufficient_liquidity` result is unreachable: `selectBestPool`
either fails with `no_valid_pools` or returns a pool.  (As stated the claim
is false: a listing reporting a negative USD liquidity is dropped by the
liquidity filter even at threshold 0.) -/
theorem selectBestPool_zero_min (pairs : List DexscreenerPair) (min : ℚ)
    (hmin : min ≤ 0)
    (husd : ∀ p ∈ pairs, ∀ l, p.liquidity = some l → ∀ u, l.usd = some u → 0 ≤ u) :
    selectBestPool pairs min = .noValidPools ∨
      ∃ pool, selectBestPool pairs min = .success pool := by
  by_cases hv : validListOf pairs = []
  · exact Or.inl (selectBestPool_eq_noValid pairs min hv)
  · right
    have hliq : liquidListOf min pairs ≠ [] := by
      intro hnil
      obtain ⟨p, hp, hok⟩ := exists_chainLabelOk_of_valid_ne_nil pairs hv
      have hge : min ≤ usdOf p := le_trans hmin (usdOf_nonneg_of p (husd p hp))
      exact absurd ((liquidListOf_eq_nil_iff min pairs).mp hnil p hp hok) (not_lt.mpr hge)
    cases hsort : jsSortDesc (fun item => usdOf item.pair) (liquidListOf min pairs) with
    | nil => exact absurd ((jsSortDesc_eq_nil_iff _ _).mp hsort) hliq
    | cons b t =>
      exact ⟨_, selectBestPool_eq_success pairs min b t hsort⟩

/-- Witness for C10 (amended): a single qualifying pool with non-negative
liquidity at threshold 0 yields a success (never `insufficient_liquidity`). -/
theorem selectBestPool_zero_min_witness :
    (0 : ℚ) ≤ 0 ∧
    (selectBestPool [examplePoolA] 0 = .noValidPools ∨
      ∃ pool, selectBestPool [examplePoolA] 0 = .success pool) :=
  ⟨le_refl 0, selectBestPool_zero_min [examplePoolA] 0 (le_refl 0) (by decide)⟩

end Dexscreener

namespace Dexscreener

/-- A JavaScript array value appearing in `selectBestPool`: either an array
of listings or an array of `{pair, poolType}` records. -/
inductive JsArray where
  | pairArr (elems : List DexscreenerPair)
  | validArr (elems : List ValidPair)
  deriving Repr, DecidableEq

/-- A tiny JavaScript heap: array references are numeric identifiers, with
a bump allocator.  It distinguishes freshly allocated arrays (`filter`,
`map` results) from in-place mutation (`Array.prototype.sort`). -/
structure JsHeap where
  next : Nat
  mem : Nat → Option JsArray

/-- Allocate a fresh array. -/
def allocJs (h : JsHeap) (v : JsArray) : Nat × JsHeap :=
  (h.next, ⟨h.next + 1, fun i => if i = h.next then some v else h.mem i⟩)

/-- Overwrite the array behind an existing reference (in-place mutation). -/
def writeJs (h : JsHeap) (r : Nat) (v : JsArray) : JsHeap :=
  ⟨h.next, fun i => if i = r then some v else h.mem i⟩

/-- Read a reference as a listing array. -/
def readPairArr (h : JsHeap) (r : Nat) : List DexscreenerPair :=
  match h.mem r with
  | some (.pairArr l) => l
  | _ => []

/-- Read a reference as a `{pair, poolType}` array. -/
def readValidArr (h : JsHeap) (r : Nat) : List ValidPair :=
  match h.mem r with
  | some (.validArr l) => l
  | _ => []

/-- Heap-threaded embedding of `selectBestPool`, making the allocation
behaviour of the source explicit: `filter` and `map(...).filter(...)`
allocate fresh arrays (`bscPairs`, `validPairs`, `liquidPairs`), while
`liquidPairs.sort(...)` mutates in place the array behind `liquidPairs` —
a reference the function itself allocated, never the caller's `pairs`
reference.  Returns the result together with the final heap. -/
def selectBestPoolHeap (h0 : JsHeap) (pairsRef : Nat) (minLiquidityUsd : ℚ) :
    SelectBestPoolResult × JsHeap :=
  let pairs := readPairArr h0 pairsRef
  let (bscRef, h1) := allocJs h0 (.pairArr (bscFilter pairs))
  let (validRef, h2) := allocJs h1
    (.validArr (((readPairArr h1 bscRef).map toValidItem).filterMap id))
  if (readValidArr h2 validRef).isEmpty then
    (.noValidPools, h2)
  else
    let (liquidRef, h3) := allocJs h2
      (.validArr ((readValidArr h2 validRef).filter
        (fun item => decide (minLiquidityUsd ≤ usdOf item.pair))))
    if (readValidArr h3 liquidRef).isEmpty then
      (.insufficientLiquidity minLiquidityUsd, h3)
    else
      let h4 := writeJs h3 liquidRef
        (.validArr (jsSortDesc (fun item => usdOf item.pair) (readValidArr h3 liquidRef)))
      match readValidArr h4 liquidRef with
      | [] => (.noValidPools, h4)
      | best :: _ =>
        (.success ⟨best.pair.pairAddress, best.poolType, best.pair.dexId, usdOf best.pair⟩,
          h4)

/-- Claim C9: `selectBestPool` leaves its argument array unchanged — after
the call the caller's `pairs` reference holds the same listings in the same
order, because filtering and mapping allocate fresh arrays and the in-place
liquidity sort is applied to one of those fresh arrays, never to the
argument. -/
theorem selectBestPoolHeap_frame (h0 : JsHeap) (pairsRef : Nat) (min : ℚ)
    (href : pairsRef < h0.next) :
    (selectBestPoolHeap h0 pairsRef min).2.mem pairsRef = h0.mem pairsRef := by
  unfold selectBestPoolHeap allocJs writeJs
  have h1 : ¬ (pairsRef = h0.next) := by omega
  have h2 : ¬ (pairsRef = h0.next + 1) := by omega
  have h3 : ¬ (pairsRef = h0.next + 2) := by omega
  dsimp only
  split
  · simp only [if_neg h2, if_neg h1]
  · split
    · simp only [if_neg h3, if_neg h2, if_neg h1]
    · split
      · simp only [if_neg h3, if_neg h2, if_neg h1]
      · simp only [if_neg h3, if_neg h2, if_neg h1]

/-- Witness for C9: a one-cell heap whose reference `0` holds a singleton
listing array is untouched by the call. -/
theorem selectBestPoolHeap_frame_witness :
    (0 : Nat) < 1 ∧
    (selectBestPoolHeap ⟨1, fun i => if i = 0 then some (.pairArr [examplePoolA]) else none⟩
      0 0).2.mem 0 =
    (⟨1, fun i => if i = 0 then some (.pairArr [examplePoolA]) else none⟩ : JsHeap).mem 0 :=
  ⟨Nat.zero_lt_one,
    selectBestPoolHeap_frame
      ⟨1, fun i => if i = 0 then some (.pairArr [examplePoolA]) else none⟩ 0 0
      Nat.zero_lt_one⟩

end Dexscreener

namespace Dexscreener

/-- The connection-aborted error code checked by `categorizeError`. -/
def codeConnAborted : String := "ECONNABORTED"

/-- The timed-out error code checked by `categorizeError`. -/
def codeTimedOut : String := "ETIMEDOUT"

/-- The DNS-failure error code checked by `categorizeError`. -/
def codeNotFound : String := "ENOTFOUND"

/-- The connection-refused error code checked by `categorizeError`. -/
def codeConnRefused : String := "ECONNREFUSED"

/-- The network-unreachable error code checked by `categorizeError`. -/
def codeNetUnreach : String := "ENETUNREACH"

/-- Timeout message of `categorizeError`. -/
def msgTimeout : String := "Dexscreener API timeout, retrying..."

/-- Rate-limit message of `categorizeError`. -/
def msgRateLimited : String := "Rate limited, waiting..."

/-- Server-error message of `categorizeError`. -/
def msgServerError : String := "Server error, retrying..."

/-- Leading part of the non-retryable API-error message of `categorizeError`;
the status number is appended, as the template literal in the source does. -/
def msgApiErrorHead : String := "API error: "

/-- Network-error message of `categorizeError`. -/
def msgNetworkError : String := "Network error, check connection"

/-- The data of an `AxiosError` inspected by `categorizeError`: the optional
`error.code` string and, when `error.response` is present, its HTTP status. -/
structure AxiosErrorM where
  code : Option String
  responseStatus : Option Nat
  deriving Repr, DecidableEq

/-- The record returned by `categorizeError` (src/dexscreener.ts lines 50-71). -/
structure CategorizedError where
  message : String
  isRetryable : Bool
  statusCode : Option Nat
  deriving Repr, DecidableEq

/-- Embedding of `categorizeError` from src/dexscreener.ts lines 50-71,
branch for branch: timeout codes first, then the HTTP response (429, 5xx,
anything else), then the named connection failures, then the fallback.
The last two branches coincide, exactly as in the source. -/
def categorizeError (e : AxiosErrorM) : CategorizedError :=
  if e.code == some codeConnAborted || e.code == some codeTimedOut then
    ⟨msgTimeout, true, none⟩
  else
    match e.responseStatus with
    | some status =>
      if status == 429 then
        ⟨msgRateLimited, true, some status⟩
      else if decide (500 ≤ status) && decide (status < 600) then
        ⟨msgServerError, true, some status⟩
      else
        ⟨msgApiErrorHead ++ Nat.repr status, false, some status⟩
    | none =>
      if e.code == some codeNotFound || e.code == some codeConnRefused
          || e.code == some codeNetUnreach then
        ⟨msgNetworkError, true, none⟩
      else
        ⟨msgNetworkError, true, none⟩

/-- Outcome of one invocation of the wrapped `fn`: a resolved value, a
rejected `AxiosError`, or a non-axios error (which `withRetry` re-raises
unmodified). -/
inductive FetchOutcome (α : Type) where
  | ok (value : α)
  | axiosFailure (e : AxiosErrorM)
  | otherFailure
  deriving Repr, DecidableEq

/-- How a `withRetry` run ends: the value, a thrown `DexscreenerApiError`
(message, optional status code, retryable flag), or a re-raised non-axios
error. -/
inductive RetryOutcome (α : Type) where
  | success (value : α)
  | apiError (message : String) (statusCode : Option Nat) (isRetryable : Bool)
  | rethrown
  deriving Repr, DecidableEq

/-- Observable trace of a `withRetry` run: how many times `fn` was invoked,
the sleeps performed between attempts (in order, in milliseconds), and the
final outcome. -/
structure RetryTrace (α : Type) where
  calls : Nat
  sleeps : List Nat
  outcome : RetryOutcome α
  deriving Repr, DecidableEq

/-- One iteration of the `for (attempt = 0; attempt <= maxRetries; ...)`
loop of `withRetry` (src/dexscreener.ts lines 80-110).  `fn` is the oracle
giving the outcome of the i-th invocation; `fuel` is the number of loop
iterations still permitted (`maxRetries + 1 - attempt` at every call site),
so the `fuel = 0` case is the dead `throw lastError` after the loop. -/
def withRetryGo {α : Type} (fn : Nat → FetchOutcome α) (maxRetries baseDelayMs : Nat) :
    Nat → Nat → RetryTrace α
  | _, 0 => ⟨0, [], .rethrown⟩
  | attempt, fuel + 1 =>
    match fn attempt with
    | .ok v => ⟨1, [], .success v⟩
    | .otherFailure => ⟨1, [], .rethrown⟩
    | .axiosFailure e =>
      let c := categorizeError e
      if !c.isRetryable || attempt == maxRetries then
        ⟨1, [], .apiError c.message c.statusCode c.isRetryable⟩
      else
        let delayMs := baseDelayMs * 2 ^ attempt
        let rest := withRetryGo fn maxRetries baseDelayMs (attempt + 1) fuel
        ⟨rest.calls + 1, delayMs :: rest.sleeps, rest.outcome⟩

/-- Embedding of `withRetry(fn, maxRetries, baseDelayMs)`: run the loop from
attempt 0 with `maxRetries + 1` permitted iterations. -/
def withRetryTrace {α : Type} (fn : Nat → FetchOutcome α)
    (maxRetries baseDelayMs : Nat) : RetryTrace α :=
  withRetryGo fn maxRetries baseDelayMs 0 (maxRetries + 1)

/-- Default retry count (src/dexscreener.ts `MAX_RETRIES = 3`). -/
def MAX_RETRIES : Nat := 3

/-- Default base delay (src/dexscreener.ts `BASE_DELAY_MS = 1000`). -/
def BASE_DELAY_MS : Nat := 1000

/-- `withRetry(fn)` with the source's default parameters, as `fetchPools`
calls it. -/
def withRetryDefault {α : Type} (fn : Nat → FetchOutcome α) : RetryTrace α :=
  withRetryTrace fn MAX_RETRIES BASE_DELAY_MS

theorem categorizeError_timeout (e : AxiosErrorM)
    (h : e.code = some codeConnAborted ∨ e.code = some codeTimedOut) :
    categorizeError e = ⟨msgTimeout, true, none⟩ := by
  unfold categorizeError
  have hc : (e.code == some codeConnAborted || e.code == some codeTimedOut) = true := by
    rcases h with h | h <;> simp [h]
  rw [if_pos hc]

theorem categorizeError_other_status (e : AxiosErrorM) (s : Nat)
    (hca : e.code ≠ some codeConnAborted) (hct : e.code ≠ some codeTimedOut)
    (hs : e.responseStatus = some s) (h429 : s ≠ 429) (h5xx : ¬(500 ≤ s ∧ s < 600)) :
    categorizeError e = ⟨msgApiErrorHead ++ Nat.repr s, false, some s⟩ := by
  unfold categorizeError
  have hc : (e.code == some codeConnAborted || e.code == some codeTimedOut) = false := by
    simp [hca, hct]
  have hcne : ¬ ((e.code == some codeConnAborted || e.code == some codeTimedOut) = true) := by
    simp [hc]
  rw [if_neg hcne, hs]
  have h4 : ¬ ((s == 429) = true) := by simp [h429]
  have h5 : ¬ ((decide (500 ≤ s) && decide (s < 600)) = true) := by
    simp only [Bool.and_eq_true, decide_eq_true_eq, not_and]
    intro ha hb
    exact h5xx ⟨ha, hb⟩
  dsimp only
  rw [if_neg h4, if_neg h5]

theorem withRetryGo_ok {α : Type} (fn : Nat → FetchOutcome α)
    (m b a f : Nat) (v : α) (h : fn a = .ok v) :
    withRetryGo fn m b a (f + 1) = ⟨1, [], .success v⟩ := by
  unfold withRetryGo
  rw [h]

theorem withRetryGo_final {α : Type} (fn : Nat → FetchOutcome α)
    (m b a f : Nat) (e : AxiosErrorM) (h : fn a = .axiosFailure e)
    (hc : (!(categorizeError e).isRetryable || a == m) = true) :
    withRetryGo fn m b a (f + 1) =
      ⟨1, [], .apiError (categorizeError e).message (categorizeError e).statusCode
        (categorizeError e).isRetryable⟩ := by
  unfold withRetryGo
  rw [h]
  dsimp only
  rw [if_pos hc]

theorem withRetryGo_retry {α : Type} (fn : Nat → FetchOutcome α)
    (m b a f : Nat) (e : AxiosErrorM) (h : fn a = .axiosFailure e)
    (hret : (categorizeError e).isRetryable = true) (hfin : (a == m) = false) :
    withRetryGo fn m b a (f + 1) =
      ⟨(withRetryGo fn m b (a + 1) f).calls + 1,
        b * 2 ^ a :: (withRetryGo fn m b (a + 1) f).sleeps,
        (withRetryGo fn m b (a + 1) f).outcome⟩ := by
  conv_lhs => unfold withRetryGo
  rw [h]
  dsimp only
  rw [if_neg (by simp [hret, hfin])]

theorem withRetryGo_calls_le {α : Type} (fn : Nat → FetchOutcome α) (m b : Nat) :
    ∀ (fuel attempt : Nat), (withRetryGo fn m b attempt fuel).calls ≤ fuel := by
  intro fuel
  induction fuel with
  | zero => intro attempt; exact le_refl 0
  | succ f ih =>
    intro attempt
    unfold withRetryGo
    cases hfn : fn attempt with
    | ok v => simp
    | otherFailure => simp
    | axiosFailure e =>
      dsimp only
      split
      · simp
      · have := ih (attempt + 1)
        simp only [RetryTrace.calls]
        omega

theorem withRetryGo_sleeps {α : Type} (fn : Nat → FetchOutcome α) (m b : Nat) :
    ∀ (fuel attempt i : Nat), i < (withRetryGo fn m b attempt fuel).sleeps.length →
      (withRetryGo fn m b attempt fuel).sleeps.getD i 0 = b * 2 ^ (attempt + i) := by
  intro fuel
  induction fuel with
  | zero =>
    intro attempt i h
    simp [withRetryGo] at h
  | succ f ih =>
    intro attempt i h
    unfold withRetryGo at h ⊢
    cases hfn : fn attempt with
    | ok v => simp [hfn] at h
    | otherFailure => simp [hfn] at h
    | axiosFailure e =>
      rw [hfn] at h
      dsimp only at h ⊢
      by_cases hc : (!(categorizeError e).isRetryable || attempt == m) = true
      · rw [if_pos hc] at h
        simp at h
      · rw [if_neg hc] at h ⊢
        dsimp only at h ⊢
        cases i with
        | zero => simp
        | succ j =>
          simp only [List.length_cons, Nat.succ_lt_succ_iff] at h
          simp only [List.getD_cons_succ]
          rw [ih (attempt + 1) j h]
          rw [show attempt + 1 + j = attempt + (j + 1) from by omega]

end Dexscreener

namespace Dexscreener

/-- Claim C5: with the default parameters (`maxRetries = 3`,
`baseDelayMs = 1000`), a wrapped fetch that fails with a timeout-classified
error on the first two attempts and succeeds on the third is invoked exactly
3 times, with sleeps of 1000 ms then 2000 ms, and its value is returned;
in general at most 4 attempts are made, the delay before retry `k`
(`k = i + 1`) is `1000 * 2 ^ i`, and a run whose four attempts all fail
retryably ends in a thrown `DexscreenerApiError` (the terminal discovery
error), built from the last error's classification with its retryable flag. -/
theorem withRetry_spec (α : Type) :
    (∀ (fn : Nat → FetchOutcome α) (e0 e1 : AxiosErrorM) (v : α),
      fn 0 = .axiosFailure e0 → fn 1 = .axiosFailure e1 → fn 2 = .ok v →
      (e0.code = some codeConnAborted ∨ e0.code = some codeTimedOut) →
      (e1.code = some codeConnAborted ∨ e1.code = some codeTimedOut) →
      withRetryDefault fn = ⟨3, [1000, 2000], .success v⟩) ∧
    (∀ fn : Nat → FetchOutcome α, (withRetryDefault fn).calls ≤ 4) ∧
    (∀ (fn : Nat → FetchOutcome α) (i : Nat),
      i < (withRetryDefault fn).sleeps.length →
      (withRetryDefault fn).sleeps.getD i 0 = 1000 * 2 ^ i) ∧
    (∀ (fn : Nat → FetchOutcome α) (e3 : AxiosErrorM),
      (∀ i, i < 3 → ∃ ei, fn i = .axiosFailure ei ∧
        (categorizeError ei).isRetryable = true) →
      fn 3 = .axiosFailure e3 → (categorizeError e3).isRetryable = true →
      (withRetryDefault fn).outcome =
        .apiError (categorizeError e3).message (categorizeError e3).statusCode true) := by
  refine ⟨?_, ?_, ?_, ?_⟩
  · intro fn e0 e1 v h0 h1 h2 ht0 ht1
    have hc0 := categorizeError_timeout e0 ht0
    have hc1 := categorizeError_timeout e1 ht1
    unfold withRetryDefault withRetryTrace MAX_RETRIES BASE_DELAY_MS
    have s0 : withRetryGo fn 3 1000 0 (3 + 1) =
        ⟨(withRetryGo fn 3 1000 1 3).calls + 1,
          1000 * 2 ^ 0 :: (withRetryGo fn 3 1000 1 3).sleeps,
          (withRetryGo fn 3 1000 1 3).outcome⟩ :=
      withRetryGo_retry fn 3 1000 0 3 e0 h0 (by rw [hc0]) (by decide)
    have s1 : withRetryGo fn 3 1000 1 3 =
        ⟨(withRetryGo fn 3 1000 2 2).calls + 1,
          1000 * 2 ^ 1 :: (withRetryGo fn 3 1000 2 2).sleeps,
          (withRetryGo fn 3 1000 2 2).outcome⟩ :=
      withRetryGo_retry fn 3 1000 1 2 e1 h1 (by rw [hc1]) (by decide)
    have s2 : withRetryGo fn 3 1000 2 2 = ⟨1, [], .success v⟩ :=
      withRetryGo_ok fn 3 1000 2 1 v h2
    rw [s0, s1, s2]
    norm_num
  · intro fn
    exact withRetryGo_calls_le fn 3 1000 (3 + 1) 0
  · intro fn i h
    have := withRetryGo_sleeps fn 3 1000 (3 + 1) 0 i h
    rwa [Nat.zero_add] at this
  · intro fn e3 hpre h3 hr3
    obtain ⟨e0, h0, hr0⟩ := hpre 0 (by norm_num)
    obtain ⟨e1, h1, hr1⟩ := hpre 1 (by norm_num)
    obtain ⟨e2, h2, hr2⟩ := hpre 2 (by norm_num)
    unfold withRetryDefault withRetryTrace MAX_RETRIES BASE_DELAY_MS
    have s0 : withRetryGo fn 3 1000 0 (3 + 1) =
        ⟨(withRetryGo fn 3 1000 1 3).calls + 1,
          1000 * 2 ^ 0 :: (withRetryGo fn 3 1000 1 3).sleeps,
          (withRetryGo fn 3 1000 1 3).outcome⟩ :=
      withRetryGo_retry fn 3 1000 0 3 e0 h0 hr0 (by decide)
    have s1 : withRetryGo fn 3 1000 1 3 =
        ⟨(withRetryGo fn 3 1000 2 2).calls + 1,
          1000 * 2 ^ 1 :: (withRetryGo fn 3 1000 2 2).sleeps,
          (withRetryGo fn 3 1000 2 2).outcome⟩ :=
      withRetryGo_retry fn 3 1000 1 2 e1 h1 hr1 (by decide)
    have s2 : withRetryGo fn 3 1000 2 2 =
        ⟨(withRetryGo fn 3 1000 3 1).calls + 1,
          1000 * 2 ^ 2 :: (withRetryGo fn 3 1000 3 1).sleeps,
          (withRetryGo fn 3 1000 3 1).outcome⟩ :=
      withRetryGo_retry fn 3 1000 2 1 e2 h2 hr2 (by decide)
    have s3 : withRetryGo fn 3 1000 3 1 =
        ⟨1, [], .apiError (categorizeError e3).message (categorizeError e3).statusCode
          (categorizeError e3).isRetryable⟩ :=
      withRetryGo_final fn 3 1000 3 0 e3 h3 (by simp)
    rw [s0, s1, s2, s3, hr3]

/-- An oracle that fails with `ETIMEDOUT` on the first two attempts and
resolves to `42` on every later attempt (the C5 retry scenario). -/
def timeoutTwiceOracle : Nat → FetchOutcome Nat := fun n =>
  match n with
  | 0 => .axiosFailure ⟨some codeTimedOut, none⟩
  | 1 => .axiosFailure ⟨some codeTimedOut, none⟩
  | _ => .ok 42

/-- Witness for C5: the concrete oracle failing with `ETIMEDOUT` twice and
then succeeding with the value `42` produces exactly the claimed trace. -/
theorem withRetry_spec_witness :
    timeoutTwiceOracle 0 = .axiosFailure ⟨some codeTimedOut, none⟩ ∧
    timeoutTwiceOracle 1 = .axiosFailure ⟨some codeTimedOut, none⟩ ∧
    timeoutTwiceOracle 2 = .ok 42 ∧
    withRetryDefault timeoutTwiceOracle = ⟨3, [1000, 2000], .success 42⟩ :=
  ⟨rfl, rfl, rfl,
    (withRetry_spec Nat).1 timeoutTwiceOracle ⟨some codeTimedOut, none⟩
      ⟨some codeTimedOut, none⟩ 42 rfl rfl rfl (Or.inr rfl) (Or.inr rfl)⟩


/-- Claim C6: when the wrapped fetch fails on the first attempt with an HTTP
response whose status is neither 429 nor 5xx (and no timeout code), the
underlying fetch is invoked exactly once, no sleep is performed, and the run
immediately ends with a `DexscreenerApiError` marked non-retryable and
carrying the status code — for any retry parameters. -/
theorem withRetry_non_retryable (α : Type) (fn : Nat → FetchOutcome α)
    (maxRetries baseDelayMs : Nat) (e : AxiosErrorM) (s : Nat)
    (h0 : fn 0 = .axiosFailure e)
    (hca : e.code ≠ some codeConnAborted) (hct : e.code ≠ some codeTimedOut)
    (hs : e.responseStatus = some s) (h429 : s ≠ 429) (h5xx : ¬(500 ≤ s ∧ s < 600)) :
    withRetryTrace fn maxRetries baseDelayMs =
      ⟨1, [], .apiError (msgApiErrorHead ++ Nat.repr s) (some s) false⟩ := by
  have hcat := categorizeError_other_status e s hca hct hs h429 h5xx
  unfold withRetryTrace
  have sfin : withRetryGo fn maxRetries baseDelayMs 0 (maxRetries + 1) =
      ⟨1, [], .apiError (categorizeError e).message (categorizeError e).statusCode
        (categorizeError e).isRetryable⟩ :=
    withRetryGo_final fn maxRetries baseDelayMs 0 maxRetries e h0 (by rw [hcat]; rfl)
  rw [sfin, hcat]

/-- An oracle that always fails with an HTTP 400 response (the C6 scenario). -/
def http400Oracle : Nat → FetchOutcome Nat := fun _ =>
  .axiosFailure ⟨none, some 400⟩

/-- Witness for C6: an HTTP 400 failure on the first attempt, with the
default parameters, gives one call, no sleeps, and a non-retryable error
carrying status 400. -/
theorem withRetry_non_retryable_witness :
    http400Oracle 0 = .axiosFailure ⟨none, some 400⟩ ∧
    withRetryTrace http400Oracle 3 1000 =
      ⟨1, [], .apiError (msgApiErrorHead ++ Nat.repr 400) (some 400) false⟩ :=
  ⟨rfl,
    withRetry_non_retryable Nat http400Oracle 3 1000
      ⟨none, some 400⟩ 400 rfl (by simp) (by simp) rfl (by norm_num) (by norm_num)⟩

end Dexscreener

namespace Swap

/-- The lowercase hexadecimal alphabet used by `Number.prototype.toString(16)`. -/
def hexAlphabet : String := "0123456789abcdef"

/-- The hexadecimal digit character for a value below 16. -/
def hexChar (n : Nat) : Char :=
  hexAlphabet.data.getD n 'x'

/-- Embedding of `n.toString(16)` for a non-negative integer `n`: its base-16
digits, most significant first, in lowercase, with no leading zeros (a
single `'0'` for zero). -/
def natToHexChars (n : Nat) : List Char :=
  if h : n < 16 then [hexChar n]
  else natToHexChars (n / 16) ++ [hexChar (n % 16)]
decreasing_by exact Nat.div_lt_self (by omega) (by norm_num)

/-- Embedding of `String.prototype.padStart(width, c)` on a character list. -/
def padStartChars (l : List Char) (width : Nat) (c : Char) : List Char :=
  List.replicate (width - l.length) c ++ l

/-- Embedding of `String.prototype.toLowerCase` on a character list (ASCII
suffices for hexadecimal addresses). -/
def toLowerChars (l : List Char) : List Char :=
  l.map Char.toLower

/-- Embedding of `encodeV3Path(tokenIn, tokenOut, fee)` from src/swap.ts
lines 359-366, with strings as character lists: drop the `0x` prefix
(`slice(2)`), lowercase, pad each address to 40 hex characters, render the
fee as 6 hex characters, and concatenate behind `0x`. -/
def encodeV3Path (tokenIn tokenOut : List Char) (fee : Nat) : List Char :=
  let tokenInHex := padStartChars (toLowerChars (tokenIn.drop 2)) 40 '0'
  let tokenOutHex := padStartChars (toLowerChars (tokenOut.drop 2)) 40 '0'
  let feeHex := padStartChars (natToHexChars fee) 6 '0'
  '0' :: 'x' :: (tokenInHex ++ feeHex ++ tokenOutHex)

/-- The tuple `encodeV3SwapCommand` passes to
`abiCoder.encode(['address','uint256','uint256','bytes','bool'], ...)`
(src/swap.ts lines 381-395).  The ABI envelope itself is not modelled; the
`path` field holds the packed path bytes embedded in the encoding. -/
structure V3SwapCommandInput where
  recipient : List Char
  amountIn : Int
  amountOutMin : Int
  path : List Char
  payerIsUser : Bool
  deriving Repr, DecidableEq

/-- Embedding of `encodeV3SwapCommand` from src/swap.ts lines 381-395: the
encoded tuple carries the recipient, the amounts, the packed
`encodeV3Path` bytes, and `payerIsUser = true`. -/
def encodeV3SwapCommand (recipient : List Char) (amountIn amountOutMin : Int)
    (tokenIn tokenOut : List Char) (fee : Nat) : V3SwapCommandInput :=
  ⟨recipient, amountIn, amountOutMin, encodeV3Path tokenIn tokenOut fee, true⟩

/-- The two lowercase hex characters of one byte. -/
def byteToHexChars (b : Nat) : List Char :=
  [hexChar (b / 16), hexChar (b % 16)]

/-- Lowercase hex rendering of a byte sequence. -/
def bytesToHexChars (bs : List Nat) : List Char :=
  bs.flatMap byteToHexChars

/-- A `0x`-prefixed lowercase hex address string for a byte sequence. -/
def addrChars (bs : List Nat) : List Char :=
  '0' :: 'x' :: bytesToHexChars bs

/-- The 3-byte big-endian representation of a fee below `2 ^ 24`. -/
def beBytes3 (fee : Nat) : List Nat :=
  [fee / 65536 % 256, fee / 256 % 256, fee % 256]

/-- Fixed-width big-endian base-16 digit list of `n` (`k` digits). -/
def hexDigitsBE (k : Nat) (n : Nat) : List Nat :=
  match k with
  | 0 => []
  | k + 1 => hexDigitsBE k (n / 16) ++ [n % 16]

theorem hexDigitsBE_zero (k : Nat) : hexDigitsBE k 0 = List.replicate k 0 := by
  induction k with
  | zero => rfl
  | succ j ih =>
    unfold hexDigitsBE
    rw [Nat.zero_div, ih, Nat.zero_mod, ← List.replicate_succ']

theorem natToHexChars_lt (n : Nat) (h : n < 16) : natToHexChars n = [hexChar n] := by
  unfold natToHexChars
  rw [dif_pos h]

theorem natToHexChars_ge (n : Nat) (h : ¬ n < 16) :
    natToHexChars n = natToHexChars (n / 16) ++ [hexChar (n % 16)] := by
  conv_lhs => unfold natToHexChars
  rw [dif_neg h]

theorem padStart_natToHexChars :
    ∀ (k n : Nat), n < 16 ^ (k + 1) →
      padStartChars (natToHexChars n) (k + 1) '0' = (hexDigitsBE (k + 1) n).map hexChar := by
  intro k
  induction k with
  | zero =>
    intro n hn
    rw [pow_one] at hn
    rw [natToHexChars_lt n hn]
    unfold padStartChars hexDigitsBE hexDigitsBE
    rw [Nat.mod_eq_of_lt hn]
    simp
  | succ j ih =>
    intro n hn
    by_cases hsmall : n < 16
    · rw [natToHexChars_lt n hsmall]
      unfold padStartChars
      conv_rhs => unfold hexDigitsBE
      rw [Nat.div_eq_of_lt hsmall, hexDigitsBE_zero, Nat.mod_eq_of_lt hsmall]
      rw [List.map_append, List.map_replicate]
      rw [show hexChar 0 = '0' from by decide]
      simp
    · rw [natToHexChars_ge n hsmall]
      have hdiv : n / 16 < 16 ^ (j + 1) := by
        rw [Nat.div_lt_iff_lt_mul (by norm_num)]
        calc n < 16 ^ (j + 1 + 1) := hn
        _ = 16 ^ (j + 1) * 16 := by ring
      have hstep : padStartChars (natToHexChars (n / 16) ++ [hexChar (n % 16)])
          (j + 1 + 1) '0' =
          padStartChars (natToHexChars (n / 16)) (j + 1) '0' ++ [hexChar (n % 16)] := by
        unfold padStartChars
        rw [List.length_append, List.length_singleton]
        rw [show j + 1 + 1 - ((natToHexChars (n / 16)).length + 1) =
          j + 1 - (natToHexChars (n / 16)).length from by omega]
        rw [List.append_assoc]
      rw [hstep, ih (n / 16) hdiv]
      conv_rhs => unfold hexDigitsBE
      rw [List.map_append]
      rfl

theorem hexDigitsBE_six (n : Nat) :
    hexDigitsBE 6 n = [n / 16 / 16 / 16 / 16 / 16 % 16, n / 16 / 16 / 16 / 16 % 16,
      n / 16 / 16 / 16 % 16, n / 16 / 16 % 16, n / 16 % 16, n % 16] := rfl

theorem feeHex_eq (fee : Nat) (h : fee < 16777216) :
    padStartChars (natToHexChars fee) 6 '0' = bytesToHexChars (beBytes3 fee) := by
  have h6 : fee < 16 ^ (5 + 1) := by norm_num; exact h
  have := padStart_natToHexChars 5 fee h6
  rw [show (5 : Nat) + 1 = 6 from rfl] at this
  rw [this, hexDigitsBE_six]
  unfold bytesToHexChars beBytes3 byteToHexChars
  have e1 : fee / 16 / 16 / 16 / 16 / 16 % 16 = fee / 65536 % 256 / 16 := by omega
  have e2 : fee / 16 / 16 / 16 / 16 % 16 = fee / 65536 % 256 % 16 := by omega
  have e3 : fee / 16 / 16 / 16 % 16 = fee / 256 % 256 / 16 := by omega
  have e4 : fee / 16 / 16 % 16 = fee / 256 % 256 % 16 := by omega
  have e5 : fee / 16 % 16 = fee % 256 / 16 := by omega
  have e6 : fee % 16 = fee % 256 % 16 := by omega
  simp only [List.map, List.flatMap_cons, List.flatMap_nil, List.append_nil]
  rw [e1, e2, e3, e4, e5, e6]
  rfl

theorem lower_hexChar (m : Nat) (h : m < 16) : Char.toLower (hexChar m) = hexChar m := by
  interval_cases m <;> decide

theorem toLower_bytesToHexChars (bs : List Nat) (h : ∀ b ∈ bs, b < 256) :
    toLowerChars (bytesToHexChars bs) = bytesToHexChars bs := by
  induction bs with
  | nil => rfl
  | cons b rest ih =>
    have hb : b < 256 := h b (List.mem_cons_self _ _)
    unfold bytesToHexChars toLowerChars at ih ⊢
    simp only [List.flatMap_cons, List.map_append]
    rw [ih (fun x hx => h x (List.mem_cons_of_mem _ hx))]
    unfold byteToHexChars
    rw [show List.map Char.toLower [hexChar (b / 16), hexChar (b % 16)] =
      [Char.toLower (hexChar (b / 16)), Char.toLower (hexChar (b % 16))] from rfl]
    rw [lower_hexChar (b / 16) (by omega), lower_hexChar (b % 16) (by omega)]

theorem length_bytesToHexChars (bs : List Nat) :
    (bytesToHexChars bs).length = 2 * bs.length := by
  induction bs with
  | nil => rfl
  | cons b rest ih =>
    unfold bytesToHexChars at ih ⊢
    simp only [List.flatMap_cons, List.length_append, List.length_cons, ih]
    unfold byteToHexChars
    simp only [List.length_cons, List.length_nil]
    omega

theorem addr_hex_prep (bs : List Nat) (h20 : bs.length = 20) (hb : ∀ b ∈ bs, b < 256) :
    padStartChars (toLowerChars ((addrChars bs).drop 2)) 40 '0' = bytesToHexChars bs := by
  have hdrop : (addrChars bs).drop 2 = bytesToHexChars bs := rfl
  rw [hdrop, toLower_bytesToHexChars bs hb]
  unfold padStartChars
  rw [length_bytesToHexChars, h20]
  norm_num

/-- Claim C8: for 20-byte `tokenIn`/`tokenOut` addresses and a fee below
`2 ^ 24`, the packed V3 path embedded by `encodeV3SwapCommand` is exactly
the hex rendering of the 43-byte concatenation
`tokenIn ++ fee (3 bytes, big-endian) ++ tokenOut`; in particular fee 2500
encodes as the bytes `0x00 0x09 0xC4`. -/
theorem encodeV3SwapCommand_path (a b : List Nat) (fee : Nat)
    (recipient : List Char) (amountIn amountOutMin : Int)
    (ha : a.length = 20) (hb : b.length = 20)
    (ha2 : ∀ x ∈ a, x < 256) (hb2 : ∀ x ∈ b, x < 256) (hfee : fee < 16777216) :
    (encodeV3SwapCommand recipient amountIn amountOutMin
        (addrChars a) (addrChars b) fee).path =
      '0' :: 'x' :: bytesToHexChars (a ++ beBytes3 fee ++ b) ∧
    (a ++ beBytes3 fee ++ b).length = 43 ∧
    beBytes3 2500 = [0, 9, 196] := by
  refine ⟨?_, ?_, by decide⟩
  · show encodeV3Path (addrChars a) (addrChars b) fee =
      '0' :: 'x' :: bytesToHexChars (a ++ beBytes3 fee ++ b)
    unfold encodeV3Path
    rw [addr_hex_prep a ha ha2, addr_hex_prep b hb hb2, feeHex_eq fee hfee]
    unfold bytesToHexChars
    simp [List.flatMap_append]
  · simp only [List.length_append, ha, hb]
    rfl

/-- Witness for C8: concrete addresses `0xAA…AA` and `0xBB…BB` with fee 2500
give the 43-byte path `AA…AA ++ 00 09 C4 ++ BB…BB`, hex-rendered behind
`0x`. -/
theorem encodeV3SwapCommand_path_witness :
    (List.replicate 20 170).length = 20 ∧
    (List.replicate 20 187).length = 20 ∧
    (2500 : Nat) < 16777216 ∧
    ((encodeV3SwapCommand ['r'] 1 0 (addrChars (List.replicate 20 170))
        (addrChars (List.replicate 20 187)) 2500).path =
      '0' :: 'x' :: bytesToHexChars
        (List.replicate 20 170 ++ beBytes3 2500 ++ List.replicate 20 187) ∧
      (List.replicate 20 170 ++ beBytes3 2500 ++ List.replicate 20 187).length = 43 ∧
      beBytes3 2500 = [0, 9, 196]) :=
  ⟨by decide, by decide, by decide,
    encodeV3SwapCommand_path (List.replicate 20 170) (List.replicate 20 187) 2500
      ['r'] 1 0 (by decide) (by decide) (by decide) (by decide) (by decide)⟩

end Swap
